import Mathlib

/-!
Verification of the DocsRAG core against its natural-language specification.

The development shallowly embeds the relevant parts of the source:
  * `apps/api/src/services/documentProcessor.ts` (the chunker),
  * `apps/api/src/services/customVectorStore.ts` together with the embedding
    service (`gemini.ts`) boundary (index store, incremental update,
    persistence, cosine similarity),
  * `apps/api/src/services/pocketFlowRAG.ts` (the query workflow orchestrator).

JavaScript `Map`s are modelled as insertion-ordered association lists, the
file-system snapshot as a record of the three persisted artifacts, and the
remote embedding provider as an explicit function parameter.  Machine floats
are modelled as exact numbers (`ℚ` where only data flow matters, `ℝ` where
the similarity formula itself is at stake); the one place where IEEE
semantics is essential (division by a zero denominator, which yields no
ordinary numeric value) is modelled explicitly by `JsNum.nan`.
-/

namespace DocsRAG

/-! ### Chunker — `DocumentProcessor` (documentProcessor.ts)

`private readonly maxChunkSize: number = 1000` and
`private readonly chunkOverlap: number = 200` (lines 8–9). -/

def maxChunkSize : ℕ := 1000

def chunkOverlap : ℕ := 200

/-- Whitespace test for the JavaScript regex class `\s` (restricted to the
ASCII whitespace characters, which is all that the repository's Markdown
corpus and the claims exercise). -/
def isWsChar (c : Char) : Bool :=
  c == ' ' || c == '\n' || c == '\t' || c == '\r' || c == '\x0b' || c == '\x0c'

/-- Worker for `splitWs`.  Mirrors JavaScript `content.split(/\s+/)`: maximal
whitespace runs separate the pieces, and a leading or trailing run produces a
leading or trailing empty string.  `acc` holds the characters of the piece
currently being read, in reverse. -/
def splitWsAux (acc : List Char) : List Char → List String
  | [] => [String.mk acc.reverse]
  | c :: rest =>
    if isWsChar c then
      match rest with
      | [] => [String.mk acc.reverse, ""]
      | d :: rest' =>
        if isWsChar d then splitWsAux acc (d :: rest')
        else String.mk acc.reverse :: splitWsAux [] (d :: rest')
    else splitWsAux (c :: acc) rest

/-- JavaScript `content.split(/\s+/)` (documentProcessor.ts line 335). -/
def splitWs (s : String) : List String := splitWsAux [] s.data

/-- `const wordsPerChunk = Math.floor(this.maxChunkSize / 6)` (line 336). -/
def wordsPerChunk : ℕ := maxChunkSize / 6

/-- `const overlapWords = Math.floor(this.chunkOverlap / 6)` (line 337). -/
def overlapWords : ℕ := chunkOverlap / 6

/-- One iteration of the sliding-window loop (lines 339–342) produces
`words.slice(i, i + wordsPerChunk)` and advances the index by
`wordsPerChunk - overlapWords`.  We model the loop state by the suffix of
`words` starting at the current index, so the advance becomes a `drop`.
`fuel` bounds the number of iterations; since every iteration advances the
index by `wordsPerChunk - overlapWords ≥ 1`, the initial word count is a
sufficient bound and the fuel is never exhausted. -/
def swcAux : ℕ → List String → List (List String)
  | _, [] => []
  | 0, _ :: _ => []
  | fuel + 1, words@(_ :: _) =>
    words.take wordsPerChunk :: swcAux fuel (words.drop (wordsPerChunk - overlapWords))

/-- The word lists of the sliding-window chunks of `words`. -/
def slidingWindowChunkWords (words : List String) : List (List String) :=
  swcAux words.length words

/-- `DocumentProcessor.slidingWindowChunk` (lines 333–345): split `content`
on whitespace, emit windows of `wordsPerChunk` words every
`wordsPerChunk - overlapWords` words, and re-join each window with single
spaces (`chunkWords.join(' ')`). -/
def slidingWindowChunk (content : String) : List String :=
  (slidingWindowChunkWords (splitWs content)).map (fun ws => String.intercalate " " ws)

/-- Character class `[a-z0-9]` (the characters kept by `sanitizeId`). -/
def isIdChar (c : Char) : Bool :=
  ('a' ≤ c && c ≤ 'z') || ('0' ≤ c && c ≤ '9')

/-- `String.prototype.toLowerCase`, restricted to ASCII (all heading text the
claims exercise is ASCII; every non-ASCII character is in any case collapsed
to a dash by the following `[^a-z0-9]+` replacement, so the restriction does
not affect `sanitizeId`). -/
def jsToLowerChar (c : Char) : Char :=
  if 'A' ≤ c && c ≤ 'Z' then Char.ofNat (c.toNat + 32) else c

/-- Collapse every maximal run of characters outside `[a-z0-9]` into a single
dash — the effect of `.replace(/[^a-z0-9]+/g, '-')`. -/
def collapseNonId : List Char → List Char
  | [] => []
  | c :: rest =>
    if isIdChar c then c :: collapseNonId rest
    else
      match rest with
      | [] => ['-']
      | d :: rest' =>
        if isIdChar d then '-' :: collapseNonId (d :: rest')
        else collapseNonId (d :: rest')

/-- `.replace(/^-|-$/g, '')`: remove a single leading and a single trailing
dash (after `collapseNonId` no longer runs of dashes exist, so this equals
trimming all boundary dashes). -/
def trimDashes (cs : List Char) : List Char :=
  let cs1 := match cs with
    | '-' :: t => t
    | other => other
  match cs1.reverse with
  | '-' :: t => t.reverse
  | _ => cs1

/-- `DocumentProcessor.sanitizeId` (lines 376–378):
`text.toLowerCase().replace(/[^a-z0-9]+/g, '-').replace(/^-|-$/g, '')`. -/
def sanitizeId (text : String) : String :=
  String.mk (trimDashes (collapseNonId (text.data.map jsToLowerChar)))

/-- The fields of a `MarkdownSection` (types/index.ts) that the chunker
reads. -/
structure MarkdownSection where
  heading : String
  level : ℕ
  content : String
  startLine : ℕ
  endLine : ℤ
deriving DecidableEq, Repr

/-- The slice of `EnhancedDocumentMetadata` that `createChunks` reads or
writes: `file_path` (used to build chunk ids), `file_name`, and the three
fields the chunker overrides per chunk (`section`, `chunk_type`,
`chunk_index`).  The remaining metadata fields are copied through unchanged
by the spread `{ ...baseMetadata }` and play no role in the claims.  The
source field `section` is renamed `sectionHeading` because `section` is a
reserved word in Lean. -/
structure ChunkMeta where
  file_path : String
  file_name : String
  sectionHeading : Option String := none
  chunk_type : String := "full_document"
  chunk_index : Option ℕ := none
deriving DecidableEq, Repr

/-- `DocumentChunk` (types/index.ts), as consumed by the vector store. -/
structure DocumentChunk where
  id : String
  text : String
  metadata : ChunkMeta
deriving DecidableEq, Repr

/-- `DocumentProcessor.createChunks` (lines 280–328).  A document whose
content is at most `maxChunkSize` characters becomes a single
`full_document` chunk; otherwise each section becomes one `section` /
`subsection` chunk, except that an oversized section is split by
`slidingWindowChunk` into indexed `subsection` chunks. -/
def createChunks (content : String) (sections : List MarkdownSection)
    (baseMetadata : ChunkMeta) : List DocumentChunk :=
  if content.length ≤ maxChunkSize then
    [{ id := baseMetadata.file_path
     , text := content
     , metadata := { baseMetadata with chunk_type := "full_document" } }]
  else
    sections.flatMap fun s =>
      let sectionContent := "# " ++ s.heading ++ "\n\n" ++ s.content
      if sectionContent.length ≤ maxChunkSize then
        [{ id := baseMetadata.file_path ++ "#" ++ sanitizeId s.heading
         , text := sectionContent
         , metadata :=
             { baseMetadata with
               sectionHeading := some s.heading
               chunk_type := if s.level = 1 then "section" else "subsection" } }]
      else
        ((slidingWindowChunk sectionContent).enum).map fun p =>
          { id := baseMetadata.file_path ++ "#" ++ sanitizeId s.heading ++ "#" ++ toString p.1
          , text := p.2
          , metadata :=
              { baseMetadata with
                sectionHeading := some s.heading
                chunk_index := some p.1
                chunk_type := "subsection" } }

/-! ### Index store — `CustomVectorStore` (customVectorStore.ts)

JavaScript `Map`s keep insertion order; we model them as association lists
with `mapGet` / `mapSet` / `mapDelete` implementing `Map.get` / `Map.set` /
`Map.delete`. -/

/-- `Map.get`. -/
def mapGet {α : Type} (m : List (String × α)) (k : String) : Option α :=
  (m.find? (fun p => p.1 == k)).map (fun p => p.2)

/-- `Map.set`: update in place if the key exists (keeping its position),
otherwise append. -/
def mapSet {α : Type} (m : List (String × α)) (k : String) (v : α) :
    List (String × α) :=
  if m.any (fun p => p.1 == k) then
    m.map (fun p => if p.1 == k then (k, v) else p)
  else m ++ [(k, v)]

/-- `Map.delete`. -/
def mapDelete {α : Type} (m : List (String × α)) (k : String) : List (String × α) :=
  m.filter (fun p => p.1 != k)

/-- `StoredDocument` (customVectorStore.ts): what `this.documents` holds. -/
structure StoredDocument where
  id : String
  text : String
  metadata : ChunkMeta
deriving DecidableEq, Repr

/-- The in-memory state of `CustomVectorStore`: `this.documents` (a map from
chunk id to document) and `this.embeddings` (a map from chunk id to vector).
An embedding value is `Option (List ℚ)` because JavaScript lets the source
store `undefined` in the map (`this.embeddings.set(doc.id, embeddings[i])`
with `i` past the end of `embeddings`); `none` models that stored
`undefined`. -/
structure StoreState where
  documents : List (String × StoredDocument)
  embeddings : List (String × Option (List ℚ))
deriving DecidableEq, Repr

/-- The persisted snapshot: `documents.json`, `embeddings.json` and the file
hash table written by `saveStoredFileHashes`. -/
structure Snapshot where
  documentsFile : List StoredDocument
  embeddingsFile : List (String × List ℚ)
  hashesFile : List (String × String)
deriving DecidableEq, Repr

/-- Contents written to `documents.json` by `saveIndex`:
`Array.from(this.documents.values())`. -/
def savedDocumentsArtifact (state : StoreState) : List StoredDocument :=
  state.documents.map (fun p => p.2)

/-- Contents written to `embeddings.json` by `saveIndex`: the embeddings map
as a JSON object.  `JSON.stringify` drops properties whose value is
`undefined`, so entries holding `undefined` disappear from the artifact. -/
def savedEmbeddingsArtifact (state : StoreState) : List (String × List ℚ) :=
  state.embeddings.filterMap (fun p => p.2.map (fun v => (p.1, v)))

/-- `CustomVectorStore.saveIndex` (lines 930–943) followed by
`saveStoredFileHashes` as performed by both ingestion passes: the snapshot
after a fully successful persistence. -/
def saveIndexAndHashes (state : StoreState) (currentFileHashes : List (String × String)) :
    Snapshot :=
  { documentsFile := savedDocumentsArtifact state
  , embeddingsFile := savedEmbeddingsArtifact state
  , hashesFile := currentFileHashes }

/-- First-occurrence deduplication, the effect of building a JavaScript `Set`
from a list and iterating it. -/
def dedupFirstAux (seen : List String) : List String → List String
  | [] => []
  | x :: rest =>
    if x ∈ seen then dedupFirstAux seen rest
    else x :: dedupFirstAux (x :: seen) rest

def dedupFirst (l : List String) : List String := dedupFirstAux [] l

/-- The values currently stored in `this.documents`, in insertion order. -/
def storedDocValues (state : StoreState) : List StoredDocument :=
  state.documents.map (fun p => p.2)

/-- `new Set(currentDocuments.map(d => d.metadata.file_path))`, iterated in
insertion order. -/
def currentFilePathsOf (docs : List DocumentChunk) : List String :=
  dedupFirst (docs.map (fun d => d.metadata.file_path))

/-- The set of file paths of the stored documents, iterated in insertion
order (the first loop of `performIncrementalUpdate`). -/
def storedFilePathsOf (state : StoreState) : List String :=
  dedupFirst ((storedDocValues state).map (fun d => d.metadata.file_path))

/-- Chunk ids deleted because their owning file vanished from the tree
(`performIncrementalUpdate` lines 858–867). -/
def removedFileChunkIds (state : StoreState) (currentFilesPaths : List String) :
    List String :=
  ((storedFilePathsOf state).filter (fun p => ¬ p ∈ currentFilesPaths)).flatMap fun p =>
    ((storedDocValues state).filter (fun d => d.metadata.file_path == p)).map (fun d => d.id)

/-- One iteration of the per-current-file loop of
`performIncrementalUpdate` (lines 869–888), accumulating
`(documentsToInsert, documentIdsToDelete)`: a path absent from the stored
hash table contributes its fresh chunks; a path with a changed hash
contributes its old chunk ids for deletion and its fresh chunks; an
unchanged path contributes nothing. -/
def changeStep (state : StoreState) (storedFileHashes : List (String × String))
    (currentDocuments : List DocumentChunk)
    (currentFileHashes : List (String × String))
    (acc : List DocumentChunk × List String) (filePath : String) :
    List DocumentChunk × List String :=
  match mapGet storedFileHashes filePath with
  | none =>
      (acc.1 ++ currentDocuments.filter (fun d => d.metadata.file_path == filePath), acc.2)
  | some storedHash =>
      if mapGet currentFileHashes filePath ≠ some storedHash then
        (acc.1 ++ currentDocuments.filter (fun d => d.metadata.file_path == filePath),
         acc.2 ++ ((storedDocValues state).filter
            (fun d => d.metadata.file_path == filePath)).map (fun d => d.id))
      else acc

/-- The change-detection part of `CustomVectorStore.performIncrementalUpdate`
(lines 843–890): produces `(documentsToInsert, documentIdsToDelete)`.
Deletions for files that vanished from the tree are collected first (the
first loop), then the per-current-file loop appends deletions for changed
files and collects insertions for new and changed files. -/
def computeChanges (state : StoreState) (snap : Snapshot)
    (currentDocuments : List DocumentChunk)
    (currentFileHashes : List (String × String)) :
    List DocumentChunk × List String :=
  let currentFilesPaths := currentFilePathsOf currentDocuments
  let inserted := currentFilesPaths.foldl
    (changeStep state snap.hashesFile currentDocuments currentFileHashes) ([], [])
  (inserted.1, removedFileChunkIds state currentFilesPaths ++ inserted.2)

/-- `CustomVectorStore.performIncrementalUpdate` (lines 840–925), as a pure
transformer of the in-memory state and the persisted snapshot.  `embedFn`
models `GeminiService.getTextEmbeddings`, which returns one vector per text
for which the provider call succeeded — on failures it silently skips
entries, so the returned list can be shorter than its input (gemini.ts lines
293–330).  The insertion loop stores `embeddings[i]` without any validity
check; an out-of-range access yields `undefined`, modelled by
`List.get? = none`. -/
def performIncrementalUpdate (state : StoreState) (snap : Snapshot)
    (currentDocuments : List DocumentChunk)
    (currentFileHashes : List (String × String))
    (embedFn : List String → List (List ℚ)) : StoreState × Snapshot :=
  let changes := computeChanges state snap currentDocuments currentFileHashes
  let documentsToInsert := changes.1
  let documentIdsToDelete := changes.2
  if documentsToInsert = [] ∧ documentIdsToDelete = [] then (state, snap)
  else
    let afterDelete : StoreState :=
      { documents := documentIdsToDelete.foldl mapDelete state.documents
      , embeddings := documentIdsToDelete.foldl mapDelete state.embeddings }
    let texts := documentsToInsert.map (fun d => d.text)
    let embeds := embedFn texts
    let afterInsert : StoreState :=
      (documentsToInsert.enum).foldl
        (fun st p =>
          { documents := mapSet st.documents p.2.id
              { id := p.2.id, text := p.2.text, metadata := p.2.metadata }
          , embeddings := mapSet st.embeddings p.2.id (embeds.get? p.1) })
        afterDelete
    (afterInsert, saveIndexAndHashes afterInsert currentFileHashes)

/-! ### Persistence with faults

The persistence tail of an ingestion pass performs three in-place
`fs.writeFileSync` calls in program order: `documents.json` and
`embeddings.json` inside `saveIndex` (customVectorStore.ts lines 930–943,
unguarded — an exception propagates and aborts the pass), then the
fingerprint table inside `saveStoredFileHashes` (utils, lines 180–187,
wrapped in `try/catch` — a failure there is logged and swallowed, so it
never throws).  To reason about a failing persistence we run the same
sequence under a fault specification: `failAt = some k` makes the `k`-th
write (0-based, in the order above) fail before modifying its artifact. -/

/-- `CustomVectorStore.saveIndex` (lines 930–943) under a fault
specification: the two unguarded writes happen in sequence, and a failing
write throws before touching its artifact, so the exception propagates with
the earlier write already applied.  Returns `(threw, resulting files)`. -/
def saveIndexWithFaults (state : StoreState) (old : Snapshot) (failAt : Option ℕ) :
    Bool × Snapshot :=
  if failAt = some 0 then (true, old)
  else
    let afterDocs := { old with documentsFile := savedDocumentsArtifact state }
    if failAt = some 1 then (true, afterDocs)
    else (false, { afterDocs with embeddingsFile := savedEmbeddingsArtifact state })

/-- `saveStoredFileHashes` (utils, lines 180–187) under a fault
specification: the fingerprint-table write is wrapped in `try/catch` and a
failure is logged and swallowed, so this call never throws — on a fault the
table simply keeps its previous contents. -/
def saveStoredFileHashesWithFaults (currentFileHashes : List (String × String))
    (snap : Snapshot) (failAt : Option ℕ) : Snapshot :=
  if failAt = some 2 then snap
  else { snap with hashesFile := currentFileHashes }

/-- The persistence tail of an ingestion pass: `await this.saveIndex()`
followed by `saveStoredFileHashes(currentFileHashes, ...)` (lines 831–832
and 923–924).  If `saveIndex` throws, the pass aborts and the hash-table
write is never reached; a hash-table write fault is swallowed and the pass
completes normally. -/
def persistPass (state : StoreState) (currentFileHashes : List (String × String))
    (old : Snapshot) (failAt : Option ℕ) : Bool × Snapshot :=
  let r := saveIndexWithFaults state old failAt
  if r.1 then r
  else (false, saveStoredFileHashesWithFaults currentFileHashes r.2 failAt)

/-! ### Cosine similarity — `CustomVectorStore.cosineSimilarity` (lines 948–964)

The arithmetic is IEEE floating point in the source; we use exact reals and
model the one non-real behaviour that matters: dividing by a zero
denominator produces no ordinary numeric value (`0/0` is `NaN` — the case
reached here, since a zero denominator forces a zero numerator), modelled by
`JsNum.nan`. -/

/-- A JavaScript number that is either an ordinary (real) value or the
result of a division by zero. -/
inductive JsNum where
  | nan : JsNum
  | val : ℝ → JsNum

/-- `dotProduct` accumulated by the loop: `Σ a[i] * b[i]`. -/
def dotProduct (a b : List ℝ) : ℝ := (List.zipWith (fun x y => x * y) a b).sum

/-- `normA` / `normB` accumulated by the loop: `Σ x[i] * x[i]` (the squared
Euclidean norm, before `Math.sqrt`). -/
def sumSquares (a : List ℝ) : ℝ := (a.map (fun x => x * x)).sum

/-- JavaScript division as used on the final line: an ordinary quotient when
the denominator is nonzero, no ordinary value otherwise. -/
noncomputable def jsDiv (x y : ℝ) : JsNum :=
  if y = 0 then JsNum.nan else JsNum.val (x / y)

/-- `CustomVectorStore.cosineSimilarity` (lines 948–964): throws when the
dimensions differ, otherwise returns
`dotProduct / (Math.sqrt(normA) * Math.sqrt(normB))` with no special case
for zero norms. -/
noncomputable def cosineSimilarity (a b : List ℝ) : Except String JsNum :=
  if a.length ≠ b.length then Except.error "Vector dimensions must match"
  else Except.ok
    (jsDiv (dotProduct a b) (Real.sqrt (sumSquares a) * Real.sqrt (sumSquares b)))

/-! ### Query workflow orchestrator — `PocketFlowRAGService` (pocketFlowRAG.ts) -/

/-- A search hit: `QueryResult` (customVectorStore.ts lines 441–444). -/
structure SearchResult where
  document : StoredDocument
  similarity : ℚ
deriving DecidableEq, Repr

/-- `CustomVectorStoreAdapter.searchDocuments` (lines 31–45): call the
store's private `vectorSearch`; any error is caught and an empty result list
is returned.  The underlying search is a parameter
`vectorSearch : query ↦ topK ↦ hits-or-error`. -/
def adapterSearchDocuments
    (vectorSearch : String → ℕ → Except String (List SearchResult))
    (query : String) (topK : ℕ) : List SearchResult :=
  match vectorSearch query topK with
  | Except.ok r => r
  | Except.error _ => []

/-- De-duplication in `VectorSearchNode.exec` (lines 184–186):
`results.filter((result, index, self) => index === self.findIndex(r => r.document.id === result.document.id))`,
which keeps exactly the first occurrence of every document id. -/
def keepFirstByDocId (results : List SearchResult) : List SearchResult :=
  ((results.enum).filter
    (fun p => results.findIdx (fun r => r.document.id == p.2.document.id) == p.1)).map
    (fun p => p.2)

/-- `VectorSearchNode.exec` (lines 169–189): search every query (original
first, then the expansions, each with `topK = 5`), concatenate, de-duplicate
by document id, and keep the first 5.  `searchDocuments` is the adapter
method, which never throws, so the per-query `try/catch` never fires. -/
def vectorSearchExec (searchDocuments : String → ℕ → List SearchResult)
    (query : String) (expanded : List String) : List SearchResult :=
  let allQueries := query :: expanded
  let results := allQueries.flatMap (fun q => searchDocuments q 5)
  let uniqueResults := keepFirstByDocId results
  uniqueResults.take 5

/-- `VectorSearchNode.post` (lines 191–207): the action string returned to
the flow. -/
def vectorSearchPost (execRes : List SearchResult) : String :=
  if execRes.length = 0 then "no_results"
  else if execRes.length ≥ 3 then "high_confidence"
  else "low_confidence"

/-- The stages (nodes) of the RAG flow built by `buildRAGFlow`. -/
inductive Stage where
  | intentStage
  | expansionStage
  | searchStage
  | contextStage
  | responseStage
  | fallbackStage
  | metadataStage
  | errorStage
deriving DecidableEq, Repr

/-- The successor table wired by `PocketFlowRAGService.buildRAGFlow` (lines
417–449).  PocketFlow's `next(node)` registers `node` under the action
`"default"` and returns `node`; `on(action, node)` registers `node` under
`action` on the receiver.  An action with no registered successor ends the
flow. -/
def flowSuccessor : Stage → String → Option Stage
  | Stage.intentStage, "default" => some Stage.expansionStage
  | Stage.intentStage, "troubleshooting" => some Stage.expansionStage
  | Stage.intentStage, "example" => some Stage.expansionStage
  | Stage.expansionStage, "default" => some Stage.searchStage
  | Stage.searchStage, "no_results" => some Stage.fallbackStage
  | Stage.searchStage, "high_confidence" => some Stage.contextStage
  | Stage.searchStage, "low_confidence" => some Stage.contextStage
  | Stage.contextStage, "default" => some Stage.responseStage
  | Stage.responseStage, "default" => some Stage.metadataStage
  | Stage.responseStage, "error" => some Stage.errorStage
  | Stage.fallbackStage, "default" => some Stage.metadataStage
  | Stage.fallbackStage, "error" => some Stage.errorStage
  | _, _ => none

/-- The stage the flow moves to after the Vector Search stage, when the
underlying store search behaves as `vectorSearch`: the adapter wraps the
store, `exec` merges the per-query results, `post` maps the outcome to an
action string, and the flow follows `buildRAGFlow`'s wiring. -/
def nextStageAfterSearch
    (vectorSearch : String → ℕ → Except String (List SearchResult))
    (query : String) (expanded : List String) : Option Stage :=
  flowSuccessor Stage.searchStage
    (vectorSearchPost
      (vectorSearchExec (adapterSearchDocuments vectorSearch) query expanded))

/-! ### The query entry point — `PocketFlowRAGService.query` (lines 451–481) -/

/-- The analytics object produced by `MetadataEnhancementNode.exec` (lines
341–355). -/
structure RunAnalytics where
  intentType : String
  confidence : ℚ
  expansions : ℕ
  documentsFound : ℕ
  topRelevance : ℚ
  responseLength : ℕ
  timestamp : String
deriving DecidableEq, Repr

/-- The `metadata` field of the object returned by `query`: on the success
path it is whatever the flow left in `shared.metadata` (possibly
`undefined`), on the catch path it is the literal
`{ error: true, message: ... }`. -/
inductive QueryMetadata where
  | fromFlow : Option RunAnalytics → QueryMetadata
  | errorMarker : String → QueryMetadata
deriving DecidableEq, Repr

/-- Whether the returned metadata flags that an error occurred (the
`error: true` marker). -/
def metadataFlagsError : QueryMetadata → Bool
  | QueryMetadata.errorMarker _ => true
  | QueryMetadata.fromFlow _ => false

/-- The outcome of `await this.ragFlow.run(shared)`: either the run
completed (leaving `shared.response` and `shared.metadata`, either possibly
undefined), or it threw. -/
inductive FlowRunOutcome where
  | completed : Option String → Option RunAnalytics → FlowRunOutcome
  | threw : String → FlowRunOutcome

/-- JavaScript `x || fallback` on a possibly-undefined string: `undefined`
and `''` are falsy. -/
def jsOrElse (o : Option String) (fallback : String) : String :=
  match o with
  | none => fallback
  | some s => if s = "" then fallback else s

/-- `ErrorHandlingNode.exec` (lines 376–391): the user-presentable error
answer. -/
def errorHandlingExec (query : String) (errorMessage : Option String) : String :=
  let msg := jsOrElse errorMessage "Unknown error occurred"
  "## ⚠️ System Error\n\nI encountered an issue while processing your query: \"" ++ query ++
    "\"\n\n**Error Details:** " ++ msg ++
    "\n\n**What you can try:**\n- Rephrase your question using different keywords\n" ++
    "- Check if your query is related to the available documentation\n" ++
    "- Try a simpler, more specific question\n\nIf this error persists, please contact support."

/-- The object returned by `query`. -/
structure QueryResponse where
  response : String
  metadata : QueryMetadata
deriving DecidableEq, Repr

/-- `PocketFlowRAGService.query` (lines 451–481) as a function of the flow
run's outcome.  The constructor unconditionally builds the flow, so the
`!this.ragFlow` guard never fires.  On the success path the answer is
`shared.response || 'No response generated'`; in the catch branch
`ErrorHandlingNode.run(shared)` stores the error answer in
`shared.response` and the result is
`{ response: shared.response || 'System error occurred',
   metadata: { error: true, message } }`. -/
def runQuery (query : String) (outcome : FlowRunOutcome) : QueryResponse :=
  match outcome with
  | FlowRunOutcome.completed resp md =>
      { response := jsOrElse resp "No response generated"
      , metadata := QueryMetadata.fromFlow md }
  | FlowRunOutcome.threw msg =>
      let errResponse := errorHandlingExec query (some msg)
      { response := jsOrElse (some errResponse) "System error occurred"
      , metadata := QueryMetadata.errorMarker msg }

/-! ### Spec-side definition for the chunk-count claim

The specification asserts that an oversized section yields
`⌈(len − overlapWords) / (windowWords − overlapWords)⌉` sliding-window
chunks.  This definition follows the spec's words (it is compared against
the source-derived `slidingWindowChunk`, never used to model the source). -/

def specClaimedChunkCount (len : ℕ) : ℕ :=
  (len - overlapWords + (wordsPerChunk - overlapWords) - 1) / (wordsPerChunk - overlapWords)

/-! ### Concrete fixtures used by counterexamples and witnesses -/

def metaA : ChunkMeta := { file_path := "A.md", file_name := "A.md" }

def metaB : ChunkMeta := { file_path := "B.md", file_name := "B.md" }

def docA : StoredDocument := { id := "A.md#a", text := "alpha", metadata := metaA }

def chunkA : DocumentChunk := { id := "A.md#a", text := "alpha", metadata := metaA }

def chunkB : DocumentChunk := { id := "B.md#b", text := "bravo", metadata := metaB }

/-- An index holding the single file `A.md` with one embedded chunk. -/
def st0 : StoreState :=
  { documents := [("A.md#a", docA)], embeddings := [("A.md#a", some [1])] }

/-- The snapshot persisted for `st0` (hash table records `A.md`). -/
def sn0 : Snapshot :=
  { documentsFile := [docA], embeddingsFile := [("A.md#a", [1])]
  , hashesFile := [("A.md", "ha")] }

/-- An index holding chunks of both `A.md` and `B.md`. -/
def st1 : StoreState :=
  { documents := [("A.md#a", docA), ("B.md#b", ⟨"B.md#b", "bravo", metaB⟩)]
  , embeddings := [("A.md#a", some [1]), ("B.md#b", some [2])] }

def hashesA : List (String × String) := [("A.md", "ha")]

def hashesAB : List (String × String) := [("A.md", "ha"), ("B.md", "hb")]

/-- A 1001-character document body (over the `maxChunkSize` threshold). -/
def content1001 : String := String.mk (List.replicate 1001 'a')

def secFoo1 : MarkdownSection := { heading := "Foo", level := 1, content := "x", startLine := 0, endLine := 1 }

def secFoo2 : MarkdownSection := { heading := "Foo", level := 2, content := "y", startLine := 2, endLine := 3 }

/-- A 132-word body; prefixing `"# h\n\n"` gives a 134-word, 1060-character
section content. -/
def bodyC6 : String := String.intercalate " " (List.replicate 132 "abcdefg")

def secC6 : MarkdownSection := { heading := "h", level := 1, content := bodyC6, startLine := 0, endLine := 1 }

/-- A 300-word, 1199-character body (three sliding-window chunks). -/
def body300 : String := String.intercalate " " (List.replicate 300 "abc")

def srA : SearchResult := { document := docA, similarity := 1 }

end DocsRAG

/-! ## Theorems -/

namespace DocsRAG

/-! ### Generic helper lemmas -/

theorem jsOrElse_ne_empty (o : Option String) (fallback : String) (h : fallback ≠ "") :
    jsOrElse o fallback ≠ "" := by
  cases o with
  | none => simpa [jsOrElse] using h
  | some s =>
    by_cases hs : s = "" <;> simp [jsOrElse, hs, h]

theorem foldl_id_of_fix {α β : Type} (f : α → β → α) :
    ∀ (l : List β), (∀ b ∈ l, ∀ a, f a b = a) → ∀ a, l.foldl f a = a := by
  intro l
  induction l with
  | nil => intro _ a; rfl
  | cons x t ih =>
    intro h a
    rw [List.foldl_cons, h x (by simp), ih (fun b hb a' => h b (by simp [hb]) a')]

theorem flatMap_eq_nil_of_forall {α β : Type} (f : α → List β) :
    ∀ (l : List α), (∀ x ∈ l, f x = []) → l.flatMap f = [] := by
  intro l
  induction l with
  | nil => intro _; rfl
  | cons x t ih =>
    intro h
    rw [List.flatMap_cons, h x (by simp), ih (fun y hy => h y (by simp [hy]))]
    rfl

/-! ### C7 — empty document -/

/-- C7 counterexample: for a document whose normalized content is empty the
chunker does not return zero chunks; it returns one chunk, and that chunk's
text is empty. -/
theorem empty_doc_one_chunk_cx :
    createChunks "" [] metaA ≠ [] ∧
    (createChunks "" [] metaA).map (fun c => c.text) = [""] := by
  constructor
  · decide
  · decide

/-- C7 (amended): a document whose content is empty after normalization
yields exactly one `full_document` chunk whose id is the file path and whose
text is the empty string — not zero chunks and not an error. -/
theorem createChunks_empty_doc_single_empty_chunk
    (sections : List MarkdownSection) (m : ChunkMeta) :
    createChunks "" sections m =
      [{ id := m.file_path, text := ""
       , metadata := { m with chunk_type := "full_document" } }] := by
  simp [createChunks, maxChunkSize]

/-! ### C4 — persistence failure -/

/-- C4 counterexample: persisting `st1` over the old snapshot `sn0` with the
second write (`embeddings.json`) failing leaves the pass failed while the
`documents.json` artifact of the previous snapshot has already been
overwritten. -/
theorem persist_failure_overwrites_cx :
    (persistPass st1 hashesAB sn0 (some 1)).1 = true ∧
    (persistPass st1 hashesAB sn0 (some 1)).2.documentsFile ≠ sn0.documentsFile ∧
    (persistPass st1 hashesAB sn0 (some 1)).2.embeddingsFile = sn0.embeddingsFile := by
  refine ⟨by decide, by decide, by decide⟩

/-- C4 (amended): only a failure of the very first snapshot write
(`documents.json`) leaves the whole previous snapshot intact.  The two
`saveIndex` writes are sequential, in place and unguarded, so a failure of
the `embeddings.json` write aborts the pass with `documents.json` already
overwritten by the new state while `embeddings.json` and the fingerprint
table keep the old state.  A fingerprint-table write failure is swallowed by
`saveStoredFileHashes`, so it does not abort the pass: the pass completes
with the new `documents.json` and `embeddings.json` but a stale fingerprint
table.  Only a fault-free pass produces the new consistent snapshot. -/
theorem persistPass_fault_characterization (state : StoreState)
    (hashes : List (String × String)) (old : Snapshot) :
    persistPass state hashes old (some 0) = (true, old) ∧
    persistPass state hashes old (some 1) =
      (true, { old with documentsFile := savedDocumentsArtifact state }) ∧
    persistPass state hashes old (some 2) =
      (false, { documentsFile := savedDocumentsArtifact state
              , embeddingsFile := savedEmbeddingsArtifact state
              , hashesFile := old.hashesFile }) ∧
    persistPass state hashes old none = (false, saveIndexAndHashes state hashes) :=
  ⟨rfl, rfl, rfl, rfl⟩

/-! ### C1 — the query entry point -/

/-- C1: for every query and every outcome of the flow run — including a
thrown error — `query` returns normally with a non-empty response string,
and when the run threw, the returned metadata is the `error: true` marker.
(`runQuery` is a total function of the outcome: the `try/catch` converts
every flow fault into a value, so no exception reaches the caller.) -/
theorem runQuery_never_faults_response_nonempty (q : String) (o : FlowRunOutcome) :
    (runQuery q o).response ≠ "" ∧
    (∀ msg, o = FlowRunOutcome.threw msg →
      metadataFlagsError (runQuery q o).metadata = true) := by
  cases o with
  | completed resp md =>
    refine ⟨?_, ?_⟩
    · exact jsOrElse_ne_empty resp "No response generated" (by decide)
    · intro msg h
      cases h
  | threw msg =>
    refine ⟨?_, ?_⟩
    · show jsOrElse (some (errorHandlingExec q (some msg))) "System error occurred" ≠ ""
      exact jsOrElse_ne_empty _ "System error occurred" (by decide)
    · intro _ _
      rfl

/-- C1 witness: a run that threw `"boom"` still produces a non-empty
response whose metadata flags the error. -/
theorem runQuery_never_faults_witness :
    (runQuery "how do I build?" (FlowRunOutcome.threw "boom")).response ≠ "" ∧
    metadataFlagsError
      (runQuery "how do I build?" (FlowRunOutcome.threw "boom")).metadata = true :=
  ⟨(runQuery_never_faults_response_nonempty "how do I build?"
      (FlowRunOutcome.threw "boom")).1,
   (runQuery_never_faults_response_nonempty "how do I build?"
      (FlowRunOutcome.threw "boom")).2 "boom" rfl⟩

/-! ### C2 — failed vector search -/

/-- C2 counterexample: with an underlying vector search that always raises,
the run leaves the Vector Search stage for the LLM-fallback stage, not the
Error Handling stage. -/
theorem failed_search_routes_to_fallback_cx :
    nextStageAfterSearch (fun _ _ => Except.error "vector search failed") "q" [] =
      some Stage.fallbackStage ∧
    nextStageAfterSearch (fun _ _ => Except.error "vector search failed") "q" [] ≠
      some Stage.errorStage := by
  constructor
  · decide
  · decide

/-- C2 (amended): a failed underlying vector search is swallowed, not
escalated: the adapter catches the error and reports an empty result list,
so when every issued query's search fails the stage produces no results and
the flow transitions to the LLM-fallback stage; the Error Handling stage is
not reached from a vector-search failure. -/
theorem failed_search_swallowed_to_fallback
    (vectorSearch : String → ℕ → Except String (List SearchResult))
    (query : String) (expanded : List String)
    (hfail : ∀ q k, ∃ e, vectorSearch q k = Except.error e) :
    vectorSearchExec (adapterSearchDocuments vectorSearch) query expanded = [] ∧
    nextStageAfterSearch vectorSearch query expanded = some Stage.fallbackStage := by
  have hempty : ∀ q k, adapterSearchDocuments vectorSearch q k = [] := by
    intro q' k
    obtain ⟨e, he⟩ := hfail q' k
    simp [adapterSearchDocuments, he]
  have hexec : vectorSearchExec (adapterSearchDocuments vectorSearch) query expanded = [] := by
    show List.take 5 (keepFirstByDocId
      ((query :: expanded).flatMap fun q => adapterSearchDocuments vectorSearch q 5)) = []
    rw [flatMap_eq_nil_of_forall _ _ (fun x _ => hempty x 5)]
    rfl
  exact ⟨hexec, by unfold nextStageAfterSearch; rw [hexec]; rfl⟩

/-- C2 witness for the amended statement, at an always-failing search. -/
theorem failed_search_swallowed_to_fallback_witness :
    vectorSearchExec
      (adapterSearchDocuments (fun _ _ => Except.error "down")) "q" ["q two"] = [] ∧
    nextStageAfterSearch (fun _ _ => Except.error "down") "q" ["q two"] =
      some Stage.fallbackStage :=
  failed_search_swallowed_to_fallback (fun _ _ => Except.error "down") "q" ["q two"]
    (fun _ _ => ⟨"down", rfl⟩)

/-! ### C5 — cosine similarity -/

theorem sumSquares_nonneg (a : List ℝ) : 0 ≤ sumSquares a := by
  unfold sumSquares
  apply List.sum_nonneg
  intro x hx
  rw [List.mem_map] at hx
  obtain ⟨y, _, rfl⟩ := hx
  exact mul_self_nonneg y

/-- C5 counterexample: on the vectors `[0]` and `[1]` (the first has norm 0)
the source divides by a zero denominator and the result is `NaN`, not the
numeric value 0 the claim requires. -/
theorem cosine_zero_norm_nan_cx :
    cosineSimilarity [(0 : ℝ)] [1] = Except.ok JsNum.nan ∧
    cosineSimilarity [(0 : ℝ)] [1] ≠ Except.ok (JsNum.val 0) := by
  have h : cosineSimilarity [(0 : ℝ)] [1] = Except.ok JsNum.nan := by
    simp [cosineSimilarity, jsDiv, sumSquares, dotProduct, Real.sqrt_zero]
  refine ⟨h, ?_⟩
  rw [h]
  intro heq
  simp at heq

/-- C5 (amended): for equal-length vectors whose norms are both nonzero the
similarity is `dot(a,b) / (‖a‖ * ‖b‖)`; but when either norm is 0 the code
divides by a zero denominator, so the result is `NaN` — an undefined numeric
value, not 0. -/
theorem cosineSimilarity_formula_and_nan (a b : List ℝ) (hlen : a.length = b.length) :
    (sumSquares a ≠ 0 → sumSquares b ≠ 0 →
      cosineSimilarity a b =
        Except.ok (JsNum.val (dotProduct a b /
          (Real.sqrt (sumSquares a) * Real.sqrt (sumSquares b))))) ∧
    ((sumSquares a = 0 ∨ sumSquares b = 0) →
      cosineSimilarity a b = Except.ok JsNum.nan) := by
  have hcs : cosineSimilarity a b =
      Except.ok (jsDiv (dotProduct a b)
        (Real.sqrt (sumSquares a) * Real.sqrt (sumSquares b))) := by
    unfold cosineSimilarity
    rw [if_neg (by simp [hlen])]
  constructor
  · intro ha hb
    have ha' : 0 < Real.sqrt (sumSquares a) :=
      Real.sqrt_pos.mpr (lt_of_le_of_ne (sumSquares_nonneg a) (Ne.symm ha))
    have hb' : 0 < Real.sqrt (sumSquares b) :=
      Real.sqrt_pos.mpr (lt_of_le_of_ne (sumSquares_nonneg b) (Ne.symm hb))
    rw [hcs]
    unfold jsDiv
    rw [if_neg (ne_of_gt (mul_pos ha' hb'))]
  · intro h
    rw [hcs]
    unfold jsDiv
    rw [if_pos ?_]
    cases h with
    | inl h0 => rw [h0, Real.sqrt_zero, zero_mul]
    | inr h0 => rw [h0, Real.sqrt_zero, mul_zero]

/-- C5 witness for the amended statement: a nonzero pair takes the formula
branch, a zero-norm pair yields `NaN`. -/
theorem cosineSimilarity_formula_and_nan_witness :
    cosineSimilarity [(1 : ℝ)] [1] =
      Except.ok (JsNum.val (dotProduct [(1 : ℝ)] [1] /
        (Real.sqrt (sumSquares [(1 : ℝ)]) * Real.sqrt (sumSquares [(1 : ℝ)])))) ∧
    cosineSimilarity [(0 : ℝ), 0] [1, 2] = Except.ok JsNum.nan :=
  ⟨(cosineSimilarity_formula_and_nan [(1 : ℝ)] [1] rfl).1
      (by norm_num [sumSquares]) (by norm_num [sumSquares]),
   (cosineSimilarity_formula_and_nan [(0 : ℝ), 0] [1, 2] rfl).2
      (Or.inl (by norm_num [sumSquares]))⟩

/-! ### C8 — duplicate headings -/

set_option maxRecDepth 40000

/-- C8 counterexample: a document of 1001 characters with two sub-threshold
sections both headed `"Foo"` yields chunk ids that are not pairwise
distinct. -/
theorem duplicate_heading_ids_cx :
    ¬ ((createChunks content1001 [secFoo1, secFoo2] metaA).map (fun c => c.id)).Nodup := by
  decide

/-- C8 (amended): a section that fits the threshold is given the id
`filePath#sanitizedHeading` with no sequence suffix (only sliding-window
sub-chunks of one oversized section get an index suffix), so two sections
with identical heading text produce identical chunk ids. -/
theorem duplicate_heading_same_id (content : String) (s1 s2 : MarkdownSection)
    (m : ChunkMeta)
    (hbig : maxChunkSize < content.length)
    (hs1 : ("# " ++ s1.heading ++ "\n\n" ++ s1.content).length ≤ maxChunkSize)
    (hs2 : ("# " ++ s2.heading ++ "\n\n" ++ s2.content).length ≤ maxChunkSize)
    (hhead : s1.heading = s2.heading) :
    (createChunks content [s1, s2] m).map (fun c => c.id) =
      [m.file_path ++ "#" ++ sanitizeId s1.heading,
       m.file_path ++ "#" ++ sanitizeId s1.heading] := by
  have hc : ¬ content.length ≤ maxChunkSize := not_le.mpr hbig
  obtain ⟨h1, l1, c1, a1, b1⟩ := s1
  obtain ⟨h2, l2, c2, a2, b2⟩ := s2
  subst hhead
  simp at hs1 hs2
  simp [createChunks, hc, hs1, hs2]

/-- C8 witness: the two `"Foo"` sections of the 1001-character document both
receive the id `A.md#foo`. -/
theorem duplicate_heading_same_id_witness :
    (createChunks content1001 [secFoo1, secFoo2] metaA).map (fun c => c.id) =
      ["A.md#foo", "A.md#foo"] := by
  rw [duplicate_heading_same_id content1001 secFoo1 secFoo2 metaA
    (by decide) (by decide) (by decide) rfl]
  decide

/-! ### C9 — idempotent reconciliation -/

theorem mem_dedupFirstAux (x : String) :
    ∀ (l seen : List String), x ∈ dedupFirstAux seen l ↔ (x ∈ l ∧ ¬ x ∈ seen) := by
  intro l
  induction l with
  | nil => intro seen; simp [dedupFirstAux]
  | cons y t ih =>
    intro seen
    by_cases hy : y ∈ seen
    · rw [dedupFirstAux, if_pos hy, ih]
      constructor
      · rintro ⟨hxt, hxs⟩
        exact ⟨List.mem_cons_of_mem y hxt, hxs⟩
      · rintro ⟨hx, hxs⟩
        rcases List.mem_cons.mp hx with rfl | hxt
        · exact absurd hy hxs
        · exact ⟨hxt, hxs⟩
    · rw [dedupFirstAux, if_neg hy]
      constructor
      · intro hx
        rcases List.mem_cons.mp hx with rfl | hxt
        · exact ⟨List.mem_cons_self x t, hy⟩
        · have h := (ih (y :: seen)).mp hxt
          refine ⟨List.mem_cons_of_mem y h.1, fun hs => h.2 (List.mem_cons_of_mem y hs)⟩
      · rintro ⟨hx, hxs⟩
        by_cases hxy : x = y
        · subst hxy
          exact List.mem_cons_self x _
        · have hxt : x ∈ t := by
            rcases List.mem_cons.mp hx with h | h
            · exact absurd h hxy
            · exact h
          apply List.mem_cons_of_mem
          apply (ih (y :: seen)).mpr
          refine ⟨hxt, fun hs => ?_⟩
          rcases List.mem_cons.mp hs with h | h
          · exact hxy h
          · exact hxs h

theorem mem_dedupFirst (x : String) (l : List String) :
    x ∈ dedupFirst l ↔ x ∈ l := by
  simp [dedupFirst, mem_dedupFirstAux]

/-- C9: reconciling an unchanged file tree (every stored chunk's file is
still present, and every current file's fingerprint matches the persisted
fingerprint table) computes empty insert and delete sets, and the update
pass leaves both the in-memory store and the persisted snapshot exactly as
they were (it returns before touching either). -/
theorem reconcile_unchanged_idempotent
    (state : StoreState) (snap : Snapshot)
    (currentDocs : List DocumentChunk) (currentHashes : List (String × String))
    (embedFn : List String → List (List ℚ))
    (hpaths : ∀ d ∈ storedDocValues state,
        d.metadata.file_path ∈ currentDocs.map (fun c => c.metadata.file_path))
    (hhash : ∀ p ∈ currentDocs.map (fun c => c.metadata.file_path),
        mapGet snap.hashesFile p = mapGet currentHashes p ∧
        (mapGet snap.hashesFile p).isSome = true) :
    computeChanges state snap currentDocs currentHashes = ([], []) ∧
    performIncrementalUpdate state snap currentDocs currentHashes embedFn =
      (state, snap) := by
  have hdel : removedFileChunkIds state (currentFilePathsOf currentDocs) = [] := by
    unfold removedFileChunkIds
    have hfilter : (storedFilePathsOf state).filter
        (fun p => ¬ p ∈ currentFilePathsOf currentDocs) = [] := by
      apply List.filter_eq_nil_iff.mpr
      intro p hp
      have hmem : p ∈ (storedDocValues state).map (fun d => d.metadata.file_path) := by
        have := (mem_dedupFirst p _).mp hp
        exact this
      rw [List.mem_map] at hmem
      obtain ⟨d, hd, rfl⟩ := hmem
      have : d.metadata.file_path ∈ currentFilePathsOf currentDocs :=
        (mem_dedupFirst _ _).mpr (hpaths d hd)
      simp [this]
    rw [hfilter]
    rfl
  have hstep : ∀ p ∈ currentFilePathsOf currentDocs,
      ∀ acc, changeStep state snap.hashesFile currentDocs currentHashes acc p = acc := by
    intro p hp acc
    have hp' : p ∈ currentDocs.map (fun c => c.metadata.file_path) :=
      (mem_dedupFirst _ _).mp hp
    obtain ⟨heq, hsome⟩ := hhash p hp'
    obtain ⟨h, hh⟩ := Option.isSome_iff_exists.mp hsome
    have hcur : mapGet currentHashes p = some h := heq.symm.trans hh
    unfold changeStep
    rw [hh]
    simp [hcur]
  have hfold : (currentFilePathsOf currentDocs).foldl
      (changeStep state snap.hashesFile currentDocs currentHashes) ([], []) = ([], []) :=
    foldl_id_of_fix _ _ (fun b hb a => hstep b hb a) ([], [])
  have hchanges : computeChanges state snap currentDocs currentHashes = ([], []) := by
    simp only [computeChanges]
    rw [hfold, hdel]
    rfl
  refine ⟨hchanges, ?_⟩
  simp only [performIncrementalUpdate]
  rw [hchanges]
  rfl

/-- C9 witness: an index over the single unchanged file `A.md` reconciled
against its own hash table is left untouched. -/
theorem reconcile_unchanged_idempotent_witness :
    computeChanges st0 sn0 [chunkA] hashesA = ([], []) ∧
    performIncrementalUpdate st0 sn0 [chunkA] hashesA (fun _ => []) = (st0, sn0) :=
  reconcile_unchanged_idempotent st0 sn0 [chunkA] hashesA (fun _ => [])
    (by
      intro d hd
      simp [storedDocValues, st0, docA, chunkA] at hd ⊢
      subst hd
      rfl)
    (by
      intro p hp
      simp [chunkA, metaA] at hp
      subst hp
      decide)

/-! ### C3 — chunks without a valid embedding -/

/-- C3: the incremental-update pass violates the embedding invariant.  With
the stored index `st0` (file `A.md`, unchanged) and a current tree that adds
file `B.md` with one chunk, an embedding service that fails for the new text
(returning no vectors, as `getTextEmbeddings` does after a provider error)
still leaves the new chunk in the in-memory store with an `undefined`
embedding under its id, and persists the chunk in `documents.json` with no
entry at all in `embeddings.json`. -/
theorem incrementalUpdate_keeps_chunk_without_embedding :
    (mapGet (performIncrementalUpdate st0 sn0 [chunkA, chunkB] hashesAB
        (fun _ => [])).1.documents "B.md#b").isSome = true ∧
    mapGet (performIncrementalUpdate st0 sn0 [chunkA, chunkB] hashesAB
        (fun _ => [])).1.embeddings "B.md#b" = some none ∧
    (performIncrementalUpdate st0 sn0 [chunkA, chunkB] hashesAB
        (fun _ => [])).2.documentsFile.any (fun d => d.id == "B.md#b") = true ∧
    mapGet (performIncrementalUpdate st0 sn0 [chunkA, chunkB] hashesAB
        (fun _ => [])).2.embeddingsFile "B.md#b" = none := by
  refine ⟨by decide, by decide, by decide, by decide⟩

/-! ### C6 — sliding-window chunk count and overlap -/

theorem swcAux_length : ∀ (fuel : ℕ) (words : List String), words.length ≤ fuel →
    (swcAux fuel words).length = (words.length + 132) / 133 := by
  intro fuel
  induction fuel with
  | zero =>
    intro words h
    have hnil : words = [] := List.eq_nil_of_length_eq_zero (Nat.le_zero.mp h)
    subst hnil
    rfl
  | succ n ih =>
    intro words h
    cases words with
    | nil => rfl
    | cons w ws =>
      have hstep : wordsPerChunk - overlapWords = 133 := by decide
      simp only [swcAux, List.length_cons]
      rw [ih ((w :: ws).drop (wordsPerChunk - overlapWords)) (by
        rw [List.length_drop]
        simp only [List.length_cons]
        simp only [List.length_cons] at h
        omega)]
      rw [List.length_drop]
      simp only [List.length_cons]
      rw [hstep]
      omega

theorem swcAux_get? : ∀ (fuel : ℕ) (words : List String) (k : ℕ),
    k < (swcAux fuel words).length →
    (swcAux fuel words).get? k =
      some ((words.drop (133 * k)).take wordsPerChunk) := by
  intro fuel
  induction fuel with
  | zero =>
    intro words k h
    cases words <;> simp [swcAux] at h
  | succ n ih =>
    intro words k h
    cases words with
    | nil => simp [swcAux] at h
    | cons w ws =>
      have hstep : wordsPerChunk - overlapWords = 133 := by decide
      cases k with
      | zero =>
        simp [swcAux]
      | succ k =>
        have h' : k < (swcAux n ((w :: ws).drop (wordsPerChunk - overlapWords))).length := by
          simp only [swcAux, List.length_cons] at h
          omega
        simp only [swcAux, List.get?_cons_succ]
        rw [ih _ k h']
        rw [hstep, List.drop_drop]
        rw [show 133 + 133 * k = 133 * (k + 1) from by ring]

/-- C6 counterexample: a section of 134 words (1060 characters, over the
threshold) is split by the chunker into 2 sliding-window chunks, while the
claimed formula `⌈(len − overlapWords)/(windowWords − overlapWords)⌉` =
`⌈(134 − 33)/133⌉` gives 1. -/
theorem sliding_window_count_cx :
    maxChunkSize < ("# " ++ secC6.heading ++ "\n\n" ++ secC6.content).length ∧
    (splitWs ("# " ++ secC6.heading ++ "\n\n" ++ secC6.content)).length = 134 ∧
    (createChunks bodyC6 [secC6] metaA).length = 2 ∧
    specClaimedChunkCount 134 = 1 := by
  refine ⟨by decide, by decide, by decide, by decide⟩

/-- C6 (amended): an oversized section of `len` words yields exactly
`⌈len / (windowWords − overlapWords)⌉ = (len + 132) / 133` sliding-window
chunks, and each chunk after the first starts with the words obtained by
dropping the first `windowWords − overlapWords` words of its predecessor —
a shared overlap of `overlapWords` words when the predecessor is a full
window, fewer when the tail of the section is shorter. -/
theorem sliding_window_count_and_overlap (content : String)
    (_hbig : maxChunkSize < content.length) :
    (slidingWindowChunk content).length = ((splitWs content).length + 132) / 133 ∧
    ∀ k, k + 1 < (slidingWindowChunkWords (splitWs content)).length →
      ((slidingWindowChunkWords (splitWs content)).get? k).map (List.drop 133) =
      ((slidingWindowChunkWords (splitWs content)).get? (k + 1)).map (List.take 33) := by
  constructor
  · show ((slidingWindowChunkWords (splitWs content)).map
      (fun ws => String.intercalate " " ws)).length = _
    rw [List.length_map]
    exact swcAux_length (splitWs content).length (splitWs content) (le_refl _)
  · intro k hk
    have hk' : k < (slidingWindowChunkWords (splitWs content)).length := by omega
    unfold slidingWindowChunkWords at hk hk' ⊢
    rw [swcAux_get? _ _ k hk', swcAux_get? _ _ (k + 1) hk]
    show some ((((splitWs content).drop (133 * k)).take wordsPerChunk).drop 133) =
      some ((((splitWs content).drop (133 * (k + 1))).take wordsPerChunk).take 33)
    rw [show wordsPerChunk = 166 from by decide]
    rw [List.drop_take, List.take_take, List.drop_drop, Nat.mul_succ]
    norm_num

/-- C6 witness for the amended statement: a 300-word oversized body yields
`⌈300/133⌉ = 3` chunks, and the second chunk starts with the 33-word overlap
of the first. -/
theorem sliding_window_count_and_overlap_witness :
    (slidingWindowChunk body300).length = ((splitWs body300).length + 132) / 133 ∧
    ((slidingWindowChunkWords (splitWs body300)).get? 0).map (List.drop 133) =
      ((slidingWindowChunkWords (splitWs body300)).get? 1).map (List.take 33) :=
  ⟨(sliding_window_count_and_overlap body300 (by decide)).1,
   (sliding_window_count_and_overlap body300 (by decide)).2 0 (by decide)⟩

/-! ### C10 — merged search results -/

theorem find?_of_findIdx {α : Type} (p : α → Bool) :
    ∀ (l : List α) (i : ℕ) (a : α),
      l.findIdx p = i → l.get? i = some a → l.find? p = some a := by
  intro l
  induction l with
  | nil =>
    intro i a _ h
    simp at h
  | cons x t ih =>
    intro i a hidx hget
    by_cases hx : p x
    · rw [List.findIdx_cons] at hidx
      simp [hx] at hidx
      subst hidx
      simp at hget
      subst hget
      simp [List.find?_cons_of_pos _ hx]
    · rw [List.findIdx_cons] at hidx
      simp [hx] at hidx
      cases i with
      | zero => omega
      | succ j =>
        rw [List.find?_cons_of_neg _ hx]
        simp only [List.get?_cons_succ] at hget
        exact ih j a (by omega) hget

theorem keepFirstByDocId_find? (l : List SearchResult) (r : SearchResult)
    (hr : r ∈ keepFirstByDocId l) :
    l.find? (fun x => x.document.id == r.document.id) = some r := by
  unfold keepFirstByDocId at hr
  rw [List.mem_map] at hr
  obtain ⟨p, hp, rfl⟩ := hr
  rw [List.mem_filter] at hp
  obtain ⟨henum, hcond⟩ := hp
  have hidx : l.findIdx (fun x => x.document.id == p.2.document.id) = p.1 := by
    simpa using hcond
  have hget : l.get? p.1 = some p.2 := by
    have h := List.mem_enum_iff_getElem?.mp henum
    rw [List.get?_eq_getElem?]
    exact h
  exact find?_of_findIdx _ l p.1 p.2 hidx hget

theorem keepFirstByDocId_nodup (l : List SearchResult) :
    ((keepFirstByDocId l).map (fun r => r.document.id)).Nodup := by
  unfold keepFirstByDocId
  rw [List.map_map]
  show (List.map _ _).Pairwise _
  rw [List.pairwise_map]
  have henum : l.enum.Pairwise (fun a b => a.1 ≠ b.1) := by
    have h1 : (l.enum.map Prod.fst).Nodup := by
      rw [List.enum_map_fst]
      exact List.nodup_range _
    have h2 : (l.enum.map Prod.fst).Pairwise (fun a b => a ≠ b) := h1
    rw [List.pairwise_map] at h2
    exact h2
  have hfiltered : (l.enum.filter
      (fun p => l.findIdx (fun r => r.document.id == p.2.document.id) == p.1)).Pairwise
      (fun a b => a.1 ≠ b.1) :=
    List.Pairwise.sublist (List.filter_sublist l.enum) henum
  refine List.Pairwise.imp_of_mem ?_ hfiltered
  intro a b ha hb hab heq
  have heq' : a.2.document.id = b.2.document.id := heq
  have hca := (List.mem_filter.mp ha).2
  have hcb := (List.mem_filter.mp hb).2
  have hia : l.findIdx (fun x => x.document.id == a.2.document.id) = a.1 := by
    simpa using hca
  have hib : l.findIdx (fun x => x.document.id == b.2.document.id) = b.1 := by
    simpa using hcb
  rw [heq'] at hia
  exact hab (hia.symm.trans hib)

/-- C10: the Vector Search stage's merge over the original query and all
expansions keeps at most 5 results, contains no two results with the same
document id, and for every kept result the kept element is the first hit
with that document id in query order (original first, then the expansions,
each searched with `topK = 5`). -/
theorem vectorSearch_merge_top5_dedup_first
    (searchDocuments : String → ℕ → List SearchResult)
    (query : String) (expanded : List String) :
    (vectorSearchExec searchDocuments query expanded).length ≤ 5 ∧
    ((vectorSearchExec searchDocuments query expanded).map
      (fun r => r.document.id)).Nodup ∧
    ∀ r ∈ vectorSearchExec searchDocuments query expanded,
      ((query :: expanded).flatMap (fun q => searchDocuments q 5)).find?
        (fun x => x.document.id == r.document.id) = some r := by
  have hform : vectorSearchExec searchDocuments query expanded =
      (keepFirstByDocId
        ((query :: expanded).flatMap (fun q => searchDocuments q 5))).take 5 := rfl
  refine ⟨?_, ?_, ?_⟩
  · rw [hform]
    exact List.length_take_le 5 _
  · rw [hform]
    have hnd := keepFirstByDocId_nodup
      ((query :: expanded).flatMap (fun q => searchDocuments q 5))
    exact List.Nodup.sublist
      (List.Sublist.map (fun r : SearchResult => r.document.id)
        (List.take_sublist 5 _)) hnd
  · intro r hr
    rw [hform] at hr
    exact keepFirstByDocId_find? _ r (List.mem_of_mem_take hr)

/-- C10 witness: with a store returning the single hit `srA` for every
query, the merged stage output keeps it once, and it is the first hit with
its id. -/
theorem vectorSearch_merge_top5_dedup_first_witness :
    (vectorSearchExec (fun _ _ => [srA]) "q" ["q2"]).length ≤ 5 ∧
    ((vectorSearchExec (fun _ _ => [srA]) "q" ["q2"]).map
      (fun r => r.document.id)).Nodup ∧
    (("q" :: ["q2"]).flatMap (fun q => (fun _ _ => [srA]) q 5)).find?
      (fun x => x.document.id == srA.document.id) = some srA :=
  ⟨(vectorSearch_merge_top5_dedup_first (fun _ _ => [srA]) "q" ["q2"]).1,
   (vectorSearch_merge_top5_dedup_first (fun _ _ => [srA]) "q" ["q2"]).2.1,
   (vectorSearch_merge_top5_dedup_first (fun _ _ => [srA]) "q" ["q2"]).2.2 srA
     (by decide)⟩

end DocsRAG
